import Mathlib

/-!
# Dashbeard dataflow core: a shallow embedding with proofs

This file embeds the core of the Dashbeard reactive dataflow graph
(Observable, Port, LoadedBinding, the offset filter, NodeGraph) as
executable Lean definitions translated from the TypeScript source, and
proves or refutes the frozen specification claims about it.

JavaScript runtime values are modelled by `JsVal` (arrays are JS objects
with index keys and are not needed by any claim, so they are folded into
`obj`).  Callbacks (observers, data handlers) are modelled either as
abstract result-returning functions or as identifiable entries in ordered
lists, with invocations reported in explicit event lists, since the
TypeScript code only ever stores them in insertion-ordered `Set`s and
calls them.
-/

namespace Dashbeard

/-- A JavaScript value as far as the dataflow core inspects one. -/
inductive JsVal where
  | undef
  | null
  | bool (b : Bool)
  | num (n : Int)
  | str (s : String)
  | obj (fields : List (String × JsVal))

/-- Field lookup in a JS object (`objA[key]`); first binding wins, which
agrees with JS objects because they cannot carry duplicate keys. -/
def lookupF : List (String × JsVal) → String → Option JsVal
  | [], _ => none
  | (k, v) :: t, key => if k = key then some v else lookupF t key

/-- The JS `typeof` operator restricted to the values of `JsVal`. -/
def typeTag : JsVal → String
  | .undef => "undefined"
  | .null => "object"
  | .bool _ => "boolean"
  | .num _ => "number"
  | .str _ => "string"
  | .obj _ => "object"

mutual

/-- Structural equality on `JsVal`, used to model the `a === b` fast path
of `isEqual` (for primitives `===` is value equality; for objects it is
reference equality, and taking structural equality here does not change
the result of `isEqual`, which recurses to the same answer). -/
def jsBeq : JsVal → JsVal → Bool
  | .undef, .undef => true
  | .null, .null => true
  | .bool x, .bool y => x == y
  | .num x, .num y => x == y
  | .str x, .str y => x == y
  | .obj fa, .obj fb => jsFieldsBeq fa fb
  | _, _ => false

def jsFieldsBeq : List (String × JsVal) → List (String × JsVal) → Bool
  | [], [] => true
  | (k, v) :: t, (k2, v2) :: t2 => k == k2 && jsBeq v v2 && jsFieldsBeq t t2
  | _, _ => false

end

mutual

/-- Embedding of `isEqual` from `src/core/observable.ts` (unnamed/part_000, lines
10-42): deep equality check using simple value comparison.  Steps in
source order: the `a === b` fast path, the null/undefined guard (which
returns `a === b`, necessarily false at that point), the `typeof`
comparison, the recursive key-by-key object comparison, and the final
`return false` for unequal primitives of the same type. -/
def isEqual (a b : JsVal) : Bool :=
  if jsBeq a b then true
  else if jsBeq a .null || jsBeq b .null || jsBeq a .undef || jsBeq b .undef then false
  else if typeTag a ≠ typeTag b then false
  else match a, b with
    | .obj fa, .obj fb => fa.length == fb.length && fieldsEq fa fb
    | _, _ => false

/-- The `keysA.every(key => hasOwnProperty(objB, key) && isEqual(objA[key],
objB[key]))` loop, iterating the fields of the first object. -/
def fieldsEq : List (String × JsVal) → List (String × JsVal) → Bool
  | [], _ => true
  | (k, va) :: t, fb =>
      (match lookupF fb k with
       | some vb => isEqual va vb
       | none => false) && fieldsEq t fb

end

/-!
## Observable (`src/core/observable.ts`, unnamed/part_000)

Listeners are identified by natural numbers; an `Observable` stores them
in an insertion-ordered set (`Set<Observer<T>>`).  Since the embedding is
pure, `notifyObservers` returns the list of (listener, delivered value)
invocations instead of running the callbacks, together with any
console-error log lines.
-/

/-- The state of one `Observable` instance: held value, registered
observers in insertion order, and the re-entrancy depth counter. -/
structure ObsState where
  value : JsVal
  observers : List Nat
  subscriptionDepth : Nat

/-- JS `Set.add` semantics: append unless already present. -/
def addObserver (xs : List Nat) (x : Nat) : List Nat :=
  if x ∈ xs then xs else xs ++ [x]

/-- Embedding of `Observable.notifyObservers`: bump the depth counter, abort with a
console error once nesting exceeds 100, otherwise report every observer
invoked with the current value and restore the counter. -/
def notifyObservers (st : ObsState) :
    ObsState × List (Nat × JsVal) × List String :=
  let d := st.subscriptionDepth + 1
  if d > 100 then
    ({ st with subscriptionDepth := 0 }, [],
      ["Observable: Possible infinite loop detected (subscription depth > 100)"])
  else
    ({ st with subscriptionDepth := d - 1 },
      st.observers.map (fun o => (o, st.value)), [])

/-- Embedding of `Observable.set`: compare with `isEqual`; when equal return without
storing or notifying, otherwise store the new value and notify. -/
def obsSet (st : ObsState) (v : JsVal) :
    ObsState × List (Nat × JsVal) × List String :=
  if isEqual st.value v then (st, [], [])
  else notifyObservers { st with value := v }

/-- Embedding of `Observable.subscribe`: adds the observer to the set and returns.  The
second component is the list of immediate invocations performed during the
call — the source performs none, even though its own doc comment and the
repository unit test expect one immediate call with the current value. -/
def obsSubscribe (st : ObsState) (l : Nat) : ObsState × List (Nat × JsVal) :=
  ({ st with observers := addObserver st.observers l }, [])

/-- Embedding of `Observable.onChange`: adds the observer to the set with no immediate
invocation. -/
def obsOnChange (st : ObsState) (l : Nat) : ObsState × List (Nat × JsVal) :=
  ({ st with observers := addObserver st.observers l }, [])

/-- The unsubscribe closure returned by `subscribe`/`onChange`:
`observers.delete(observer)`. -/
def obsUnsubscribe (st : ObsState) (l : Nat) : ObsState :=
  { st with observers := st.observers.erase l }

/-- C7: for an Observable at rest (depth counter 0, as it is outside any
notification cascade), `set(v)` is a no-op when `v` is structurally equal
to the current value, and otherwise stores `v` and notifies every
registered listener, in order, with `v`. -/
theorem observable_set_notifies_iff_structurally_unequal
    (st : ObsState) (v : JsVal) (h : st.subscriptionDepth = 0) :
    (isEqual st.value v = true → obsSet st v = (st, [], [])) ∧
    (isEqual st.value v = false →
      obsSet st v =
        ({ st with value := v }, st.observers.map (fun o => (o, v)), [])) := by
  constructor <;> intro he <;>
    simp [obsSet, notifyObservers, he, h]

/-- Witness for C7 at a concrete input: setting a structurally equal
object with a different reference does not notify, while setting a
structurally different object notifies listener 5 with the new value. -/
theorem observable_set_notifies_iff_structurally_unequal_witness :
    (obsSet ⟨.obj [("a", .num 1), ("b", .num 2)], [5], 0⟩
        (.obj [("b", .num 2), ("a", .num 1)]) =
      (⟨.obj [("a", .num 1), ("b", .num 2)], [5], 0⟩, [], [])) ∧
    (obsSet ⟨.obj [("a", .num 1), ("b", .num 2)], [5], 0⟩
        (.obj [("a", .num 1), ("b", .num 3)]) =
      (⟨.obj [("a", .num 1), ("b", .num 3)], [5], 0⟩,
        [(5, .obj [("a", .num 1), ("b", .num 3)])], [])) :=
  ⟨(observable_set_notifies_iff_structurally_unequal _ _ rfl).1 rfl,
   (observable_set_notifies_iff_structurally_unequal _ _ rfl).2 rfl⟩

/-- C8, evaluated at the repository's own unit-test input
(`new Observable('hello')`): `subscribe` registers the listener but
performs zero immediate invocations, and the returned unsubscribe
function removes it again; `onChange` likewise registers without an
immediate call.  The claimed immediate call with the current value does
not happen. -/
theorem observable_subscribe_performs_no_immediate_call :
    obsSubscribe ⟨.str "hello", [], 0⟩ 0 = (⟨.str "hello", [0], 0⟩, []) ∧
    obsOnChange ⟨.str "hello", [], 0⟩ 0 = (⟨.str "hello", [0], 0⟩, []) ∧
    obsUnsubscribe ⟨.str "hello", [0], 0⟩ 0 = ⟨.str "hello", [], 0⟩ :=
  ⟨rfl, rfl, rfl⟩

/-!
## Port data delivery (`src/flow/port.ts`)

`SourceType` is the three-valued echo-prevention tag.  A data handler is
an async callback that may reject; it is modelled as a function returning
`Except String α` (error message or result).  `Port.onNewData` wraps each
handler in an individual catch-and-log (`Promise.resolve(h(...)).catch`),
then awaits them all (`Promise.all`), so a rejection inside a handler is
converted to a log line and can never make the surrounding promise fail.
-/

/-- The `SourceType` enum of `src/flow/port.ts`. -/
inductive SourceTag where
  | upstream
  | downstream
  | portOwner
deriving DecidableEq, Repr

/-- The `isPortData` type guard: a non-null object whose `value` member is
not `undefined` and whose `timestamp` member is a number. -/
def isPortData (d : JsVal) : Bool :=
  match d with
  | .obj fields =>
      (match lookupF fields "value" with
       | some .undef => false
       | some _ => true
       | none => false)
      &&
      (match lookupF fields "timestamp" with
       | some (.num _) => true
       | _ => false)
  | _ => false

/-- A registered port data handler: receives the envelope and the source
tag and either succeeds with a result or rejects with a message. -/
def PortHandler (α : Type) : Type := JsVal → SourceTag → Except String α

/-- Embedding of `Promise.resolve(handler(data, sourceType)).catch(...)`:
the caught promise always succeeds; a rejection becomes a log line. -/
def catchLogged {α : Type} (pname : String) (r : Except String α) :
    Except String (Option α) × List String :=
  match r with
  | .ok a => (.ok (some a), [])
  | .error e => (.ok none, ["Error in port handler for " ++ pname ++ ": " ++ e])

/-- Embedding of `Promise.all`: fails as soon as any member promise fails, otherwise
collects every result. -/
def promiseAll {β : Type} : List (Except String β) → Except String (List β)
  | [] => .ok []
  | .error e :: _ => .error e
  | .ok b :: t => (promiseAll t).map (fun l => b :: l)

/-- The state of a port that `onNewData` touches: its name, its most
recent envelope and its registered handlers in insertion order. -/
structure HPortState (α : Type) where
  pname : String
  lastData : Option JsVal
  handlers : List (PortHandler α)

/-- Embedding of `Port.onNewData` from `src/flow/port.ts` lines 152-173: reject
invalid envelopes, store `lastData`, run every registered handler inside
an individual catch-and-log, and await them all.  Returns the updated
port state, the per-handler outcomes, and the accumulated error log. -/
def portOnNewData {α : Type} (st : HPortState α) (d : JsVal) (tag : SourceTag) :
    Except String (HPortState α × List (Option α) × List String) :=
  if isPortData d = false then
    .error ("Invalid PortData at " ++ st.pname)
  else
    let caught := st.handlers.map (fun h => catchLogged st.pname (h d tag))
    match promiseAll (caught.map Prod.fst) with
    | .error e => .error e
    | .ok outs => .ok ({ st with lastData := some d }, outs, (caught.map Prod.snd).flatten)

/-- The outcome an individually-caught handler contributes to the
`Promise.all` result. -/
def handlerOutcome {α : Type} (r : Except String α) : Option α :=
  match r with
  | .ok a => some a
  | .error _ => none

/-- The log lines an individually-caught handler contributes. -/
def handlerLog {α : Type} (pname : String) (r : Except String α) : List String :=
  match r with
  | .ok _ => []
  | .error e => ["Error in port handler for " ++ pname ++ ": " ++ e]

/-- The first component of an individually-caught promise is always a
success carrying that handler's outcome. -/
theorem catchLogged_fst {α : Type} (pname : String) (r : Except String α) :
    (catchLogged pname r).1 = .ok (handlerOutcome r) := by
  cases r <;> rfl

/-- Running `promiseAll` over a list of already-resolved promises collects their
values. -/
theorem promiseAll_ok {α β : Type} (g : α → β) (rs : List α) :
    promiseAll (rs.map (fun r => (Except.ok (g r) : Except String β))) =
      .ok (rs.map g) := by
  induction rs with
  | nil => rfl
  | cons r t ih => simp [promiseAll, ih, Except.map]

/-- Running `promiseAll` over promises that were each individually caught never
fails: every member is `.ok`. -/
theorem promiseAll_of_caught {α : Type} (pname : String)
    (rs : List (Except String α)) :
    promiseAll (rs.map (fun r => (catchLogged pname r).1)) =
      .ok (rs.map handlerOutcome) := by
  have h : rs.map (fun r => (catchLogged pname r).1) =
      rs.map (fun r => (Except.ok (handlerOutcome r) : Except String (Option α))) :=
    List.map_congr_left (fun r _ => catchLogged_fst pname r)
  rw [h, promiseAll_ok]

/-- C4: for a valid envelope, `onNewData` resolves normally whatever the
registered handlers do: it stores the envelope as `lastData`, every
registered handler runs (one outcome per handler, in order, including the
ones after a failing handler), each failure is logged individually, and
no handler error reaches the caller. -/
theorem port_onNewData_isolates_handler_errors {α : Type}
    (st : HPortState α) (d : JsVal) (tag : SourceTag)
    (h : isPortData d = true) :
    portOnNewData st d tag =
      .ok ({ st with lastData := some d },
        st.handlers.map (fun f => handlerOutcome (f d tag)),
        (st.handlers.map (fun f => handlerLog st.pname (f d tag))).flatten) := by
  have hcat :
      (st.handlers.map (fun h => catchLogged st.pname (h d tag))).map Prod.fst =
        (st.handlers.map (fun f => f d tag)).map
          (fun r => (catchLogged st.pname r).1) := by
    simp [List.map_map]
  have hlog :
      (st.handlers.map (fun h => catchLogged st.pname (h d tag))).map Prod.snd =
        st.handlers.map (fun f => handlerLog st.pname (f d tag)) := by
    simp only [List.map_map]
    refine List.map_congr_left (fun f _ => ?_)
    cases hf : f d tag <;> simp [catchLogged, handlerLog, hf]
  have hall := promiseAll_of_caught st.pname (st.handlers.map (fun f => f d tag))
  simp only [List.map_map] at hall
  simp [portOnNewData, h, hcat, hlog, List.map_map, hall]

/-- Witness for C4: a port with one rejecting and one succeeding handler;
`onNewData` still resolves, the second handler still ran, the failure is
logged, and `lastData` is the delivered envelope. -/
theorem port_onNewData_isolates_handler_errors_witness :
    portOnNewData
        (⟨"p", none,
          [fun _ _ => .error "boom", fun _ _ => .ok 7]⟩ : HPortState Nat)
        (.obj [("value", .num 5), ("timestamp", .num 1000)]) .portOwner =
      .ok (⟨"p", some (.obj [("value", .num 5), ("timestamp", .num 1000)]),
            [fun _ _ => .error "boom", fun _ _ => .ok 7]⟩,
        [none, some 7], ["Error in port handler for p: boom"]) :=
  port_onNewData_isolates_handler_errors _ _ .portOwner rfl

/-!
## Port connection (`src/flow/port.ts`, `connectToInput` lines 223-295)

Ports are identified by numeric ids (`===` on port objects becomes id
equality).  Handlers stored in a port's `Set<PortDataHandler>` are
`HEntry` values: user handlers, or the two relay closures a connection
installs.  Each `connectToInput` call allocates fresh closures; the
freshness is made explicit with a generation number `gen`, so a second
connection installs a second, distinct relay pair exactly as the source
does.  The final seeding push (`downstreamPort.onNewData(this.lastData,
SourceType.PortOwner)`) is reported as an event and its direct effect on
the input port's `lastData` is applied; the further relay cascade it can
trigger runs through `onNewData`, which is modelled separately above and
does not alter any connection state.
-/

/-- An entry of a port's handler set: a user-registered handler, or one
of the two relay closures installed by `connectToInput` (forward on the
output port, backward on the input port). -/
inductive HEntry where
  | user (n : Nat)
  | relayFwd (upId dnId gen : Nat)
  | relayBwd (upId dnId gen : Nat)
deriving DecidableEq, Repr

/-- Connection-relevant state of one `Port`. -/
structure PortSt where
  pid : Nat
  pname : String
  ptype : String
  isOutput : Bool
  upstreamConnection : Option Nat
  handlers : List HEntry
  unsubs : List HEntry
  lastData : Option JsVal

/-- The errors `connectToInput` can throw, in source order. -/
inductive ConnErr where
  | notDownstreamFacing
  | targetIsOutput
  | typeMismatch
  | selfConnection
  | alreadyConnected
deriving DecidableEq, Repr

/-- Observable side effects of `connectToInput` other than state
mutation. -/
inductive ConnEvent where
  | warnedAlreadyConnected
  | seededLastData (d : JsVal)

/-- JS `Set.add`: append unless the same entry is already present. -/
def addHandler (hs : List HEntry) (h : HEntry) : List HEntry :=
  if h ∈ hs then hs else hs ++ [h]

/-- The mutation phase of `connectToInput` (everything after the guards):
store the upstream reference, install the forward relay on the output
port and the backward relay on the input port, record both teardown
closures on the input port, and, if the output port holds a `lastData`
envelope, push it once into the input port. -/
def connectFinish (o i : PortSt) (gen : Nat) (evs : List ConnEvent) :
    Option ConnErr × PortSt × PortSt × List ConnEvent :=
  let x := HEntry.relayFwd o.pid i.pid gen
  let y := HEntry.relayBwd o.pid i.pid gen
  let o2 := { o with handlers := addHandler o.handlers x }
  let i2 := { i with upstreamConnection := some o.pid,
                     handlers := addHandler i.handlers y,
                     unsubs := addHandler (addHandler i.unsubs x) y }
  match o.lastData with
  | some d => (none, o2, { i2 with lastData := some d }, evs ++ [.seededLastData d])
  | none => (none, o2, i2, evs)

/-- Embedding of `Port.connectToInput` called on output port `o` with input port `i`,
with the source's guards in order: caller must be an output, target must
not be an output, the two type tags must match exactly (the check is
repeated behind a non-empty-string guard in the source; both throw the
same type-mismatch error), the target must not be the caller itself, and
a target already connected to a *different* upstream is rejected after a
console warning — a target already connected to `o` itself only warns and
falls through to the mutation phase. -/
def connectToInput (o i : PortSt) (gen : Nat) :
    Option ConnErr × PortSt × PortSt × List ConnEvent :=
  if o.isOutput = false then (some .notDownstreamFacing, o, i, [])
  else if i.isOutput then (some .targetIsOutput, o, i, [])
  else if o.ptype ≠ i.ptype then (some .typeMismatch, o, i, [])
  else if o.ptype ≠ "" && i.ptype ≠ "" && o.ptype ≠ i.ptype then
    (some .typeMismatch, o, i, [])
  else if i.pid = o.pid then (some .selfConnection, o, i, [])
  else
    match i.upstreamConnection with
    | some u =>
        if u ≠ o.pid then
          (some .alreadyConnected, o, i, [.warnedAlreadyConnected])
        else connectFinish o i gen [.warnedAlreadyConnected]
    | none => connectFinish o i gen []

/-- C5: connecting an output port to an input port of a different type
tag fails with the type-mismatch error and leaves both ports — upstream
reference, handler sets, teardown sets, last data — exactly as they
were, with no events emitted. -/
theorem connect_type_mismatch_rejects_without_mutation
    (o i : PortSt) (gen : Nat)
    (ho : o.isOutput = true) (hi : i.isOutput = false)
    (hne : o.ptype ≠ i.ptype)
    (_hoa : o.ptype ≠ "any") (_hia : i.ptype ≠ "any") :
    connectToInput o i gen = (some .typeMismatch, o, i, []) := by
  simp [connectToInput, ho, hi, hne]

/-- Witness for C5: a number output against a string input is rejected
with no mutation. -/
theorem connect_type_mismatch_rejects_without_mutation_witness :
    connectToInput ⟨0, "out", "number", true, none, [], [], none⟩
        ⟨1, "in", "string", false, none, [], [], none⟩ 0 =
      (some .typeMismatch,
        ⟨0, "out", "number", true, none, [], [], none⟩,
        ⟨1, "in", "string", false, none, [], [], none⟩, []) :=
  connect_type_mismatch_rejects_without_mutation _ _ 0 rfl rfl
    (by decide) (by decide) (by decide)

/-- Counterexample to C6 as stated: reconnecting the same upstream is
*not* a no-op.  Starting from the state produced by a first connection
(relay pair of generation 0 installed), a second `connectToInput` call
succeeds but installs a second relay pair, so the output port's handler
set differs from its value before the call. -/
theorem connect_reconnect_not_noop_counterexample :
    (connectToInput
        ⟨0, "out", "number", true, none, [.relayFwd 0 1 0], [], none⟩
        ⟨1, "in", "number", false, some 0, [.relayBwd 0 1 0],
          [.relayFwd 0 1 0, .relayBwd 0 1 0], none⟩ 1).1 = none ∧
    (connectToInput
        ⟨0, "out", "number", true, none, [.relayFwd 0 1 0], [], none⟩
        ⟨1, "in", "number", false, some 0, [.relayBwd 0 1 0],
          [.relayFwd 0 1 0, .relayBwd 0 1 0], none⟩ 1).2.1.handlers ≠
      [.relayFwd 0 1 0] := by
  decide

/-- C6 as amended: when the input port's current upstream is a different
port the call rejects with the already-connected error and changes
nothing; when it is the same output port the call succeeds without
throwing, but it is not a no-op — a fresh relay pair is installed on both
ports, both teardown closures are recorded again, and the output port's
`lastData`, when present, is pushed into the input port once more. -/
theorem connect_reconnect_succeeds_but_installs_duplicates
    (o i : PortSt) (gen : Nat)
    (ho : o.isOutput = true) (hi : i.isOutput = false)
    (ht : o.ptype = i.ptype) (hself : i.pid ≠ o.pid) :
    (∀ u, i.upstreamConnection = some u → u ≠ o.pid →
      connectToInput o i gen =
        (some .alreadyConnected, o, i, [.warnedAlreadyConnected])) ∧
    (i.upstreamConnection = some o.pid →
      connectToInput o i gen =
        connectFinish o i gen [.warnedAlreadyConnected] ∧
      (connectToInput o i gen).1 = none ∧
      (connectToInput o i gen).2.1.handlers =
        addHandler o.handlers (.relayFwd o.pid i.pid gen) ∧
      (connectToInput o i gen).2.2.1.handlers =
        addHandler i.handlers (.relayBwd o.pid i.pid gen) ∧
      (connectToInput o i gen).2.2.1.unsubs =
        addHandler (addHandler i.unsubs (.relayFwd o.pid i.pid gen))
          (.relayBwd o.pid i.pid gen) ∧
      (connectToInput o i gen).2.2.1.upstreamConnection = some o.pid ∧
      (∀ d, o.lastData = some d →
        (connectToInput o i gen).2.2.2 =
          [.warnedAlreadyConnected, .seededLastData d] ∧
        (connectToInput o i gen).2.2.1.lastData = some d)) := by
  constructor
  · intro u hu hne
    simp [connectToInput, ho, hi, ht, hself, hu, hne]
  · intro hu
    have hconn : connectToInput o i gen =
        connectFinish o i gen [.warnedAlreadyConnected] := by
      simp [connectToInput, ho, hi, ht, hself, hu]
    refine ⟨hconn, ?_⟩
    rw [hconn]
    cases hld : o.lastData <;>
      simp [connectFinish, hld]

/-- Witness for C6 (amended): concrete reconnect of the generation-1
relay pair on ports already connected at generation 0, and a concrete
rejection against a different upstream (port 9). -/
theorem connect_reconnect_succeeds_but_installs_duplicates_witness :
    (connectToInput
        ⟨0, "out", "number", true, none, [.relayFwd 0 1 0], [], none⟩
        ⟨1, "in", "number", false, some 9, [.relayBwd 0 1 0],
          [.relayFwd 0 1 0, .relayBwd 0 1 0], none⟩ 1) =
      (some .alreadyConnected,
        ⟨0, "out", "number", true, none, [.relayFwd 0 1 0], [], none⟩,
        ⟨1, "in", "number", false, some 9, [.relayBwd 0 1 0],
          [.relayFwd 0 1 0, .relayBwd 0 1 0], none⟩,
        [.warnedAlreadyConnected]) ∧
    (connectToInput
        ⟨0, "out", "number", true, none, [.relayFwd 0 1 0], [], none⟩
        ⟨1, "in", "number", false, some 0, [.relayBwd 0 1 0],
          [.relayFwd 0 1 0, .relayBwd 0 1 0], none⟩ 1).2.1.handlers =
      [.relayFwd 0 1 0, .relayFwd 0 1 1] :=
  ⟨((connect_reconnect_succeeds_but_installs_duplicates
      ⟨0, "out", "number", true, none, [.relayFwd 0 1 0], [], none⟩
      ⟨1, "in", "number", false, some 9, [.relayBwd 0 1 0],
        [.relayFwd 0 1 0, .relayBwd 0 1 0], none⟩ 1 rfl rfl rfl
      (by decide)).1 9 rfl (by decide)),
   by
    have h := ((connect_reconnect_succeeds_but_installs_duplicates
      ⟨0, "out", "number", true, none, [.relayFwd 0 1 0], [], none⟩
      ⟨1, "in", "number", false, some 0, [.relayBwd 0 1 0],
        [.relayFwd 0 1 0, .relayBwd 0 1 0], none⟩ 1 rfl rfl rfl
      (by decide)).2 rfl).2.2.1
    rw [h]
    decide⟩

/-!
## Loaded binding wiring (`src/flow/loaded-binding.ts`, `doConnect` lines 143-163)

`doConnect` issues a sequence of `connectToInput` calls between the
source node's output port, the main ports of the filter-chain nodes, and
the destination node's input port.  `doConnectEdges n` lists, in call
order, the (upstream port, downstream port) pairs connected for a filter
chain of length `n`: first `source → filter[0].input`; then, for every
filter of `this.filters.slice(1)` (indices 1 … n-1), the call
`filter.node.inputPort?.connectToOutput(filter.node.outputPort!)`, which
connects that same filter's own output port to its own input port; and
finally `filter[n-1].output → destination`.
-/

/-- A port endpoint of a loaded binding's wiring: the resolved source
output port, the resolved destination input port, or a chain filter's
main input/output port (by chain index). -/
inductive BPort where
  | sourceOut
  | destinationIn
  | filterIn (i : Nat)
  | filterOut (i : Nat)
deriving DecidableEq, Repr

/-- The ordered list of port connections `LoadedBinding.doConnect` makes
for a chain of `n` filters. -/
def doConnectEdges (n : Nat) : List (BPort × BPort) :=
  if n > 0 then
    [(BPort.sourceOut, BPort.filterIn 0)]
      ++ (List.range (n - 1)).map
          (fun j => (BPort.filterOut (j + 1), BPort.filterIn (j + 1)))
      ++ [(BPort.filterOut (n - 1), BPort.destinationIn)]
  else [(BPort.sourceOut, BPort.destinationIn)]

/-- C1, evaluated at a chain of two filters: `doConnect` wires
source → filter[0].input and filter[1].output → destination as claimed,
but the middle connection is filter[1].output → filter[1].input — the
second filter's own ports — rather than the claimed
filter[0].output → filter[1].input, so filter[0]'s output is left
unconnected.  The zero-filter and one-filter cases do match the claim. -/
theorem doConnect_two_filter_chain_diverges :
    doConnectEdges 2 =
      [(.sourceOut, .filterIn 0), (.filterOut 1, .filterIn 1),
        (.filterOut 1, .destinationIn)] ∧
    doConnectEdges 2 ≠
      [(.sourceOut, .filterIn 0), (.filterOut 0, .filterIn 1),
        (.filterOut 1, .destinationIn)] ∧
    doConnectEdges 0 = [(.sourceOut, .destinationIn)] ∧
    doConnectEdges 1 = [(.sourceOut, .filterIn 0), (.filterOut 0, .destinationIn)] := by
  decide

/-!
## Offset filter (`src/flow/filters/offset-filter-node.ts`)

`OffsetFilterNode` keeps a private `currentOffset`, applied by
`handleInputData`; `handleOffsetData` overwrites it from the side-channel
`offset` port.  The constructor chain (`Filter` →
`FilterNode(filterId, manifest)`) passes only the manifest, never the
binding's filter `config`, and `currentOffset` is initialized to `0` — so
a configured `value` (for example 3) is never applied.  (The `Filter`
class in `src/flow/filter.ts` additionally always instantiates the base
`FilterNode`, which installs no transform handler at all;
`OffsetFilterNode` is not constructed anywhere.)
-/

/-- The private state of an `OffsetFilterNode`. -/
structure OffsetFilterState where
  currentOffset : Int
deriving DecidableEq, Repr

/-- Construction of an offset filter node for a binding filter entry:
`currentOffset` starts at `0`; the `config` object (which carries the
configured `value`) is not consulted anywhere in the class. -/
def offsetFilterInit (_config : List (String × JsVal)) : OffsetFilterState :=
  { currentOffset := 0 }

/-- Embedding of `handleOffsetData`: a numeric envelope on the `offset` side input
replaces `currentOffset`; anything else is ignored. -/
def handleOffsetData (st : OffsetFilterState) (v : JsVal) : OffsetFilterState :=
  match v with
  | .num n => { st with currentOffset := n }
  | _ => st

/-- Embedding of `handleInputData`: non-numeric values are dropped (no forward);
numeric values are forwarded to the output port after adding
`currentOffset` when the tag is Upstream, subtracting it when the tag is
Downstream, and unchanged for PortOwner.  The returned value is the one
pushed to the `output` port. -/
def handleInputData (st : OffsetFilterState) (v : JsVal) (tag : SourceTag) :
    Option Int :=
  match v with
  | .num n =>
      some (match tag with
        | .downstream => n - st.currentOffset
        | .upstream => n + st.currentOffset
        | .portOwner => n)
  | _ => none

/-- C9, evaluated at the claimed scenario (offset filter configured with
value = 3): a fresh filter node's `currentOffset` is 0, so value 10
pushed forward emerges as 10 (not the claimed 13) and value 13 pushed
backward emerges as 13 (not the claimed 10); the direction-sensitive
add/subtract only ever applies the side-channel offset, never the
configured value. -/
theorem offset_filter_ignores_configured_value :
    (offsetFilterInit [("value", .num 3)]).currentOffset = 0 ∧
    handleInputData (offsetFilterInit [("value", .num 3)])
        (.num 10) .upstream = some 10 ∧
    handleInputData (offsetFilterInit [("value", .num 3)])
        (.num 13) .downstream = some 13 := by
  decide

/-!
## NodeGraph (`src/flow/node-graph.ts`, unnamed/part_003)

The graph keeps three registries: node id → node, binding id → loaded
binding, and the set of node ids that completed `ready`.  JS `Map`s are
modelled as insertion-ordered lists keyed by the record's id field, with
`Map.set` replacing in place and `Map.get`/iteration in insertion order.
Lifecycle callbacks (`onReady`, `onDestroy`, binding teardown, the
`nodeGraphRefreshed` structural-change notification) are reported as
`GEvent`s.  Port-level wiring performed by `LoadedBinding.doConnect` is
modelled by `doConnectEdges` above and reported here as a
`bindingConnected` event: its failures and effects live entirely in the
port layer and touch none of the three registries.
-/

/-- First segment of a dotted `component.port` reference:
`ref.split('.')[0]`. -/
def takeSeg : List Char → List Char
  | [] => []
  | c :: cs => if c = '.' then [] else c :: takeSeg cs

/-- The characters after the first `'.'` of the reference. -/
def dropSeg : List Char → List Char
  | [] => []
  | c :: cs => if c = '.' then cs else dropSeg cs

/-- Embedding of `ref.split('.')[0]`: the component id of a port reference. -/
def compOf (s : String) : String := String.mk (takeSeg s.data)

/-- Embedding of `ref.split('.')[1]`: the port name of a port reference. -/
def portOf (s : String) : String := String.mk (takeSeg (dropSeg s.data))

/-- One entry of a binding definition's filter stack
(`FilterStackItem`): filter type tag and config object. -/
structure FilterDef where
  ftype : String
  config : List (String × JsVal)

/-- A `BindingDefinition` from the board document: id, dotted
`component.port` endpoints, filter stack. -/
structure BindingDef where
  id : String
  fromPort : String
  toPort : String
  filters : List FilterDef

/-- What the graph registry needs from a `Node`: its id and the declared
output ports (name and type tag), used for the filter chain's initial
upstream type. -/
structure NodeRec where
  id : String
  outputPorts : List (String × String)
deriving DecidableEq, Repr

/-- A `LoadedBinding` record as stored in the graph's binding registry:
resolved endpoint node ids and port names, the ids of the filter nodes of
its chain (cleared by `destroy()`), and the originating definition. -/
structure LoadedB where
  id : String
  sourceNodeId : String
  sourcePortName : String
  destinationNodeId : String
  destinationPortName : String
  filterIds : List String
  config : BindingDef

/-- A registered filter manifest, as far as `LoadedBinding` construction
consults it: its type tag, whether `createPorts` accepts a given upstream
type (the offset manifest rejects non-numeric types by throwing), and the
declared `outputType`. -/
structure FilterRegEntry where
  ftype : String
  acceptsType : String → Bool
  outputType : Option String

/-- The three registries of a `NodeGraph`. -/
structure GraphState where
  nodes : List NodeRec
  loadedBindings : List LoadedB
  readyNodes : List String

/-- The errors the `NodeGraph` operations throw. -/
inductive GErr where
  | duplicateNode (id : String)
  | nodeNotFound (id : String)
  | missingComponent (fromP toP : String)
  | wouldCreateCycle (src dst : String)
  | filterNotRegistered (ftype : String)
  | filterPortsRejected (ftype : String) (upstreamType : String)
deriving DecidableEq, Repr

/-- Lifecycle calls and notifications a graph operation performs, in
order. -/
inductive GEvent where
  | bindingDestroyed (id : String)
  | nodeOnDestroy (id : String)
  | nodeOnReady (id : String)
  | refreshNotified
  | bindingConnected (id : String)
deriving DecidableEq, Repr

/-- Embedding of `NodeGraph.getNode`: `Map.get` on the node registry. -/
def getNode (st : GraphState) (nodeId : String) : Option NodeRec :=
  st.nodes.find? (fun n => n.id == nodeId)

/-- The loaded bindings viewed as directed node-to-node edges
(source node id, destination node id) — destroyed-but-still-registered
bindings included, exactly as `hasPath` iterates them. -/
def edges (st : GraphState) : List (String × String) :=
  st.loadedBindings.map (fun b => (b.sourceNodeId, b.destinationNodeId))

/-- The outgoing neighbours `hasPath` computes for a node: destinations
of the registered bindings whose source is that node, in registry
order. -/
def bindingSucc (bs : List LoadedB) (s : String) : List String :=
  (bs.filter (fun b => b.sourceNodeId == s)).map (fun b => b.destinationNodeId)

/-- Embedding of `NodeGraph.hasPath`: depth-first search for a path from `s` to `t`
over the binding edges, with a shared visited set threaded through the
recursion (the source mutates one `Set`).  The `fuel` argument only
bounds the recursion depth for Lean's sake; the source recursion
terminates because every level inserts a fresh node into `visited`, and
`dfsNode_fuel_irrelevant` below shows any fuel above the number of
binding sources gives the same answer. -/
def dfsNode (bs : List LoadedB) (t : String) : Nat → String → List String → Bool × List String
  | 0, _, v => (false, v)
  | fuel + 1, s, v =>
    if s = t then (true, v)
    else if s ∈ v then (false, v)
    else
      (bindingSucc bs s).foldl
        (fun acc next => if acc.1 then acc else dfsNode bs t fuel next acc.2)
        (false, s :: v)

/-- Fuel with which the graph runs its DFS: strictly more than the number
of binding-source entries, so the depth bound is never hit. -/
def fuelFor (bs : List LoadedB) : Nat := bs.length + 1

/-- Embedding of `NodeGraph.detectCycle`'s probe: is there a path from
`sourceId` to `targetId` through the existing binding edges? -/
def hasPathG (bs : List LoadedB) (sourceId targetId : String) : Bool :=
  (dfsNode bs targetId (fuelFor bs) sourceId []).1

/-- Embedding of `NodeGraph.addNode`: duplicate-id error, else register. -/
def addNodeOp (st : GraphState) (n : NodeRec) :
    Option GErr × GraphState × List GEvent :=
  if (getNode st n.id).isSome then (some (.duplicateNode n.id), st, [])
  else (none, { st with nodes := st.nodes ++ [n] }, [])

/-- Embedding of `LoadedBinding.destroy` reached through `deleteBinding`: the filter
chain is destroyed and cleared, but the binding record itself stays in
the registry (`deleteBinding` never deletes the map entry). -/
def destroyLB (bs : List LoadedB) (target : String) : List LoadedB :=
  bs.map (fun b => if b.id == target then { b with filterIds := [] } else b)

/-- Embedding of `NodeGraph.deleteBinding`: find the first loaded binding whose
definition has the same `fromPort` and `toPort`, destroy it if found
(without removing it from the registry), and notify `nodeGraphRefreshed`
either way.  An absent binding is not an error. -/
def deleteBindingOp (st : GraphState) (bc : BindingDef) :
    Option GErr × GraphState × List GEvent :=
  match st.loadedBindings.find?
      (fun lb => lb.config.fromPort == bc.fromPort && lb.config.toPort == bc.toPort) with
  | some lb =>
      (none, { st with loadedBindings := destroyLB st.loadedBindings lb.id },
        [.bindingDestroyed lb.id, .refreshNotified])
  | none => (none, st, [.refreshNotified])

/-- Embedding of `NodeGraph.removeNode`: not-found error for an absent id; otherwise
`deleteBinding` every binding touching the node, call `onDestroy` when
the node had completed `ready` (removing it from the ready set), and drop
the node from the registry. -/
def removeNodeOp (st : GraphState) (nodeId : String) :
    Option GErr × GraphState × List GEvent :=
  match getNode st nodeId with
  | none => (some (.nodeNotFound nodeId), st, [])
  | some _ =>
      let affected := st.loadedBindings.filter
        (fun b => b.sourceNodeId == nodeId || b.destinationNodeId == nodeId)
      let folded := affected.foldl
        (fun (acc : GraphState × List GEvent) b =>
          let r := deleteBindingOp acc.1 b.config
          (r.2.1, acc.2 ++ r.2.2))
        (st, [])
      if nodeId ∈ folded.1.readyNodes then
        (none, { folded.1 with
                  readyNodes := folded.1.readyNodes.erase nodeId,
                  nodes := folded.1.nodes.filter (fun n => n.id != nodeId) },
          folded.2 ++ [.nodeOnDestroy nodeId])
      else
        (none, { folded.1 with
                  nodes := folded.1.nodes.filter (fun n => n.id != nodeId) },
          folded.2)

/-- Embedding of `NodeGraph.ready`: sweep the node registry in order, calling
`onReady` on (and recording) every node not yet in the ready set. -/
def readyOp (st : GraphState) : Option GErr × GraphState × List GEvent :=
  let folded := st.nodes.foldl
    (fun (acc : List String × List GEvent) n =>
      if n.id ∈ acc.1 then acc
      else (acc.1 ++ [n.id], acc.2 ++ [.nodeOnReady n.id]))
    (st.readyNodes, [])
  (none, { st with readyNodes := folded.1 }, folded.2)

/-- Embedding of `NodeGraph.destroy`: call `onDestroy` on every ready node, destroy
every loaded binding, clear all three registries. -/
def destroyOp (st : GraphState) : Option GErr × GraphState × List GEvent :=
  let destroyEvs := (st.nodes.filter (fun n => st.readyNodes.contains n.id)).map
    (fun n => GEvent.nodeOnDestroy n.id)
  let bindingEvs := st.loadedBindings.map (fun b => GEvent.bindingDestroyed b.id)
  (none, ⟨[], [], []⟩, destroyEvs ++ bindingEvs)

/-- Embedding of `NodeGraph.clear`: `destroy()` followed by clearing the (already
empty) node registry. -/
def clearOp (st : GraphState) : Option GErr × GraphState × List GEvent :=
  let r := destroyOp st
  (r.1, { r.2.1 with nodes := [] }, r.2.2)

/-- The filter-node id `LoadedBinding` builds for chain position `i`. -/
def lbFilterId (bid : String) (i : Nat) : String :=
  bid ++ "-filter-" ++ toString i

/-- Embedding of `upstreamNode.getOutputPort(name)?.type || 'any'`: the declared type
of the node's output port, with `'any'` for a missing port or a falsy
(empty) type string. -/
def getOutputPortType (n : NodeRec) (pname : String) : String :=
  match n.outputPorts.find? (fun p => p.1 == pname) with
  | some p => if p.2 = "" then "any" else p.2
  | none => "any"

/-- The filter-instantiation loop of the `LoadedBinding` constructor:
for each filter entry, look up its manifest (throwing if unregistered),
register a fresh filter node with the graph (`addNode`, which can throw
on a duplicate id), shape its ports from the running upstream type
(`setupPorts` → `createPorts`, which can throw), and advance the running
type by the manifest's declared output type (`getOutputType`).  Errors
leave the filter nodes added so far in the node registry, exactly as a
mid-loop exception does in the source. -/
def buildFilters (reg : List FilterRegEntry) (bid : String) :
    List FilterDef → Nat → String → GraphState → List String →
    Option GErr × GraphState × List String
  | [], _, _, st, acc => (none, st, acc)
  | fd :: rest, i, curType, st, acc =>
      match reg.find? (fun e => e.ftype == fd.ftype) with
      | none => (some (.filterNotRegistered fd.ftype), st, acc)
      | some man =>
          let fid := lbFilterId bid i
          if (getNode st fid).isSome then (some (.duplicateNode fid), st, acc)
          else
            let st2 := { st with nodes := st.nodes ++ [⟨fid, []⟩] }
            if man.acceptsType curType then
              let nextType := match man.outputType with
                | some t => if t = "" then curType else t
                | none => curType
              buildFilters reg bid rest (i + 1) nextType st2 (acc ++ [fid])
            else (some (.filterPortsRejected fd.ftype curType), st2, acc)

/-- JS `Map.set` on the binding registry: replace in place at an existing
key, append otherwise. -/
def setLB : List LoadedB → LoadedB → List LoadedB
  | [], lb => [lb]
  | b :: t, lb => if b.id == lb.id then lb :: t else b :: setLB t lb

/-- The filter-stack branch of the `LoadedBinding` constructor: when the
definition carries filters, run the instantiation loop starting from the
source port's declared type; otherwise leave the graph untouched. -/
def lbConstruct (reg : List FilterRegEntry) (st : GraphState) (bd : BindingDef)
    (up : NodeRec) : Option GErr × GraphState × List String :=
  if bd.filters.length > 0 then
    buildFilters reg bd.id bd.filters 0
      (getOutputPortType up (portOf bd.fromPort)) st []
  else (none, st, [])

/-- Embedding of `NodeGraph.loadBinding`: resolve both endpoint nodes (error if either
is missing), run `detectCycle` — a DFS from the destination node looking
for a path back to the source node — before any mutation and throw the
would-create-cycle error if it finds one, then construct the
`LoadedBinding` (instantiating filter nodes), record it under the
binding id, wire the ports (`doConnect`), and notify
`nodeGraphRefreshed`. -/
def loadBindingOp (reg : List FilterRegEntry) (st : GraphState) (bd : BindingDef) :
    Option GErr × GraphState × List GEvent :=
  match getNode st (compOf bd.fromPort), getNode st (compOf bd.toPort) with
  | some up, some dn =>
      if hasPathG st.loadedBindings dn.id up.id then
        (some (.wouldCreateCycle up.id dn.id), st, [])
      else
        match (lbConstruct reg st bd up).1 with
        | some e => (some e, (lbConstruct reg st bd up).2.1, [])
        | none =>
            (none,
              { (lbConstruct reg st bd up).2.1 with
                loadedBindings := setLB (lbConstruct reg st bd up).2.1.loadedBindings
                  ⟨bd.id, up.id, portOf bd.fromPort, dn.id, portOf bd.toPort,
                    (lbConstruct reg st bd up).2.2, bd⟩ },
              [.bindingConnected bd.id, .refreshNotified])
  | _, _ => (some (.missingComponent bd.fromPort bd.toPort), st, [])

/-- The mutating public operations of a `NodeGraph` (the remaining public
surface — `getNode`, `getNodes`, `getBindings`, `canBind` — reads the
registries without changing them). -/
inductive GraphOp where
  | addNode (n : NodeRec)
  | removeNode (id : String)
  | loadBinding (reg : List FilterRegEntry) (bd : BindingDef)
  | deleteBinding (bd : BindingDef)
  | ready
  | destroyAll
  | clear

/-- Dispatch a public operation on the graph state. -/
def applyGraphOp (op : GraphOp) (st : GraphState) :
    Option GErr × GraphState × List GEvent :=
  match op with
  | .addNode n => addNodeOp st n
  | .removeNode nodeId => removeNodeOp st nodeId
  | .loadBinding reg bd => loadBindingOp reg st bd
  | .deleteBinding bd => deleteBindingOp st bd
  | .ready => readyOp st
  | .destroyAll => destroyOp st
  | .clear => clearOp st

/-!
## Reachability over binding edges, and correctness of `hasPath`

`stepE E` is one binding edge; `ReachE E` is its reflexive-transitive
closure; `AcyclicE E` states no node reaches itself through at least one
edge.  The lemmas below establish that the source's DFS (`dfsNode`)
decides reachability: if it answers `false` the visited set it built is
closed under successors and avoids the target, so no path exists; if it
answers `true` a path exists.
-/

/-- The edge list of a binding registry. -/
def edgesL (bs : List LoadedB) : List (String × String) :=
  bs.map (fun b => (b.sourceNodeId, b.destinationNodeId))

/-- One hop along a binding edge. -/
def stepE (E : List (String × String)) (a b : String) : Prop := (a, b) ∈ E

/-- Reachability through binding edges. -/
def ReachE (E : List (String × String)) : String → String → Prop :=
  Relation.ReflTransGen (stepE E)

/-- No node reaches itself through at least one binding edge. -/
def AcyclicE (E : List (String × String)) : Prop :=
  ∀ a, ¬ Relation.TransGen (stepE E) a a

/-- The graph invariant of C2: the loaded bindings, viewed as directed
node-to-node edges, form an acyclic graph. -/
def AcyclicSt (st : GraphState) : Prop := AcyclicE (edges st)

theorem edges_eq_edgesL (st : GraphState) : edges st = edgesL st.loadedBindings := rfl

theorem mem_edgesL {bs : List LoadedB} {a b : String} :
    (a, b) ∈ edgesL bs ↔
      ∃ lb ∈ bs, lb.sourceNodeId = a ∧ lb.destinationNodeId = b := by
  simp [edgesL, List.mem_map, Prod.mk.injEq]

theorem mem_bindingSucc_iff {bs : List LoadedB} {a b : String} :
    b ∈ bindingSucc bs a ↔ (a, b) ∈ edgesL bs := by
  simp only [bindingSucc, List.mem_map, List.mem_filter, beq_iff_eq, mem_edgesL]
  constructor
  · rintro ⟨lb, ⟨hm, hsrc⟩, hdst⟩
    exact ⟨lb, hm, hsrc, hdst⟩
  · rintro ⟨lb, hm, hsrc, hdst⟩
    exact ⟨lb, ⟨hm, hsrc⟩, hdst⟩

/-- A node with at least one outgoing binding edge appears among the
binding sources. -/
theorem mem_sources_of_bindingSucc_ne_nil {bs : List LoadedB} {s : String}
    (h : bindingSucc bs s ≠ []) :
    s ∈ bs.map (fun b => b.sourceNodeId) := by
  rcases hb : bindingSucc bs s with _ | ⟨y, _⟩
  · exact absurd hb h
  · have : y ∈ bindingSucc bs s := by rw [hb]; exact List.mem_cons_self _ _
    rw [mem_bindingSucc_iff, mem_edgesL] at this
    rcases this with ⟨lb, hm, hsrc, _⟩
    exact List.mem_map.mpr ⟨lb, hm, hsrc⟩

/-- The Boolean predicate "not yet visited", kept as a named function so
that rewriting keeps it atomic. -/
def notIn (v : List String) (x : String) : Bool := decide (x ∉ v)

theorem notIn_pos {v : List String} {x : String} (h : x ∉ v) : notIn v x = true := by
  simp [notIn, h]

theorem notIn_neg {v : List String} {x : String} (h : x ∈ v) : notIn v x = false := by
  simp [notIn, h]

/-- Number of (multiset) binding sources outside the visited set: the
DFS recursion-depth measure. -/
def outsideCount (bs : List LoadedB) (v : List String) : Nat :=
  ((bs.map (fun b => b.sourceNodeId)).filter (notIn v)).length

theorem filter_outside_length_le {v w : List String} (hvw : v ⊆ w) :
    ∀ l : List String,
      (l.filter (notIn w)).length ≤ (l.filter (notIn v)).length := by
  intro l
  refine (List.monotone_filter_right l (fun a ha => ?_)).length_le
  have haw : a ∉ w := by simpa [notIn] using ha
  exact notIn_pos (fun hav => haw (hvw hav))

theorem outsideCount_mono {bs : List LoadedB} {v w : List String}
    (hvw : v ⊆ w) : outsideCount bs w ≤ outsideCount bs v :=
  filter_outside_length_le hvw _

theorem filter_outside_length_lt {s : String} {v : List String}
    (hsv : s ∉ v) :
    ∀ l : List String, s ∈ l →
      (l.filter (notIn (s :: v))).length < (l.filter (notIn v)).length := by
  intro l
  induction l with
  | nil => intro h; exact absurd h (List.not_mem_nil s)
  | cons x t ih =>
    intro hmem
    have hle : (t.filter (notIn (s :: v))).length ≤ (t.filter (notIn v)).length :=
      filter_outside_length_le (fun a ha => List.mem_cons_of_mem s ha) t
    by_cases hxs : x = s
    · subst hxs
      rw [List.filter_cons_of_neg (by simp [notIn_neg (List.mem_cons_self x v)]),
        List.filter_cons_of_pos (by simp [notIn_pos hsv])]
      simpa using Nat.lt_succ_of_le hle
    · have hst : s ∈ t := by
        rcases List.mem_cons.mp hmem with h1 | h1
        · exact absurd h1.symm hxs
        · exact h1
      have hlt := ih hst
      by_cases hxv : x ∈ v
      · rw [List.filter_cons_of_neg (by simp [notIn_neg (List.mem_cons_of_mem s hxv)]),
          List.filter_cons_of_neg (by simp [notIn_neg hxv])]
        exact hlt
      · have hxsv : x ∉ s :: v := by
          intro hc
          rcases List.mem_cons.mp hc with h2 | h2
          · exact hxs h2
          · exact hxv h2
        rw [List.filter_cons_of_pos (by simp [notIn_pos hxsv]),
          List.filter_cons_of_pos (by simp [notIn_pos hxv])]
        simpa using Nat.succ_lt_succ hlt

theorem outsideCount_lt {bs : List LoadedB} {s : String} {v : List String}
    (hsrc : s ∈ bs.map (fun b => b.sourceNodeId)) (hsv : s ∉ v) :
    outsideCount bs (s :: v) < outsideCount bs v :=
  filter_outside_length_lt hsv _ hsrc

/-- Once the fold inside `dfsNode` has found the target it keeps its
accumulator unchanged. -/
theorem dfsFold_true (bs : List LoadedB) (t : String) (fuel : Nat)
    (l : List String) (w : List String) :
    l.foldl (fun acc next => if acc.1 then acc else dfsNode bs t fuel next acc.2)
      (true, w) = (true, w) := by
  induction l with
  | nil => rfl
  | cons n rest ih => simpa using ih

/-- The DFS only ever grows the visited set. -/
theorem dfsNode_visited_mono (bs : List LoadedB) (t : String) :
    ∀ fuel s v, v ⊆ (dfsNode bs t fuel s v).2 := by
  intro fuel
  induction fuel with
  | zero => intro s v; simp [dfsNode]
  | succ fuel ih =>
    intro s v
    by_cases hst : s = t
    · simp [dfsNode, hst]
    · by_cases hsv : s ∈ v
      · simp [dfsNode, hst, hsv]
      · have aux : ∀ (l : List String) (acc : Bool × List String),
            acc.2 ⊆ (l.foldl
              (fun acc next => if acc.1 then acc else dfsNode bs t fuel next acc.2)
              acc).2 := by
          intro l
          induction l with
          | nil => intro acc; exact fun a ha => ha
          | cons n rest ihl =>
            intro acc
            refine fun a ha => ihl _ ?_
            by_cases hb : acc.1
            · simpa [hb] using ha
            · simpa [hb] using ih n acc.2 ha
        have h1 : v ⊆ s :: v := fun a ha => List.mem_cons_of_mem s ha
        have h2 := aux (bindingSucc bs s) (false, s :: v)
        simp only [dfsNode, hst, hsv, if_false, if_neg hst, if_neg hsv]
        exact fun a ha => h2 (h1 ha)

/-- Soundness: a `true` answer yields a path. -/
theorem dfsNode_true_reach (bs : List LoadedB) (t : String) :
    ∀ fuel s v, (dfsNode bs t fuel s v).1 = true →
      ReachE (edgesL bs) s t := by
  intro fuel
  induction fuel with
  | zero => intro s v h; simp [dfsNode] at h
  | succ fuel ih =>
    intro s v h
    by_cases hst : s = t
    · exact hst ▸ Relation.ReflTransGen.refl
    · by_cases hsv : s ∈ v
      · simp [dfsNode, hst, hsv] at h
      · have aux : ∀ (l : List String) (v0 : List String),
            (∀ n ∈ l, n ∈ bindingSucc bs s) →
            ((l.foldl
              (fun acc next => if acc.1 then acc else dfsNode bs t fuel next acc.2)
              (false, v0)).1 = true) →
            ReachE (edgesL bs) s t := by
          intro l
          induction l with
          | nil => intro v0 _ hfold; simp at hfold
          | cons n rest ihl =>
            intro v0 hmem hfold
            rcases hr : dfsNode bs t fuel n v0 with ⟨b, v1⟩
            cases b with
            | true =>
              have hreach : ReachE (edgesL bs) n t := by
                have := ih n v0
                rw [hr] at this
                exact this rfl
              have hstep : stepE (edgesL bs) s n :=
                mem_bindingSucc_iff.mp (hmem n (List.mem_cons_self _ _))
              exact Relation.ReflTransGen.head hstep hreach
            | false =>
              have : ((rest.foldl
                  (fun acc next => if acc.1 then acc else dfsNode bs t fuel next acc.2)
                  (false, v1)).1 = true) := by
                simpa [hr] using hfold
              exact ihl v1 (fun m hm => hmem m (List.mem_cons_of_mem n hm)) this
        simp only [dfsNode, if_neg hst, if_neg hsv] at h
        exact aux (bindingSucc bs s) (s :: v) (fun n hn => hn) h

/-- Completeness skeleton: a `false` answer means the DFS fully explored
everything reachable — the final visited set contains the start node,
avoids the target, and is closed under binding successors (for the nodes
added by this call). -/
theorem dfsNode_false_explored (bs : List LoadedB) (t : String) :
    ∀ fuel s v w, outsideCount bs v < fuel →
      dfsNode bs t fuel s v = (false, w) →
      v ⊆ w ∧ s ∈ w ∧
        ∀ x ∈ w, x ∉ v → x ≠ t ∧ ∀ y ∈ bindingSucc bs x, y ∈ w := by
  intro fuel
  induction fuel with
  | zero => intro s v w hout; exact absurd hout (Nat.not_lt_zero _)
  | succ fuel ih =>
    intro s v w hout hrun
    by_cases hst : s = t
    · simp [dfsNode, hst] at hrun
    · by_cases hsv : s ∈ v
      · simp only [dfsNode, if_neg hst, if_pos hsv] at hrun
        obtain ⟨rfl⟩ : v = w := by cases hrun; rfl
        exact ⟨fun a ha => ha, hsv, fun x hx hnx => absurd hx hnx⟩
      · have aux : ∀ (l : List String) (v0 w0 : List String),
            (∀ n ∈ l, n ∈ bindingSucc bs s) →
            outsideCount bs v0 < fuel →
            (l.foldl
              (fun acc next => if acc.1 then acc else dfsNode bs t fuel next acc.2)
              (false, v0)) = (false, w0) →
            v0 ⊆ w0 ∧ (∀ n ∈ l, n ∈ w0) ∧
              ∀ x ∈ w0, x ∉ v0 → x ≠ t ∧ ∀ y ∈ bindingSucc bs x, y ∈ w0 := by
          intro l
          induction l with
          | nil =>
            intro v0 w0 _ _ hfold
            obtain ⟨rfl⟩ : v0 = w0 := by cases hfold; rfl
            exact ⟨fun a ha => ha, by simp, fun x hx hnx => absurd hx hnx⟩
          | cons n rest ihl =>
            intro v0 w0 hmem hfuel hfold
            have hfold1 : (rest.foldl
                (fun acc next => if acc.1 then acc else dfsNode bs t fuel next acc.2)
                (dfsNode bs t fuel n v0)) = (false, w0) := by
              simpa using hfold
            rcases hr : dfsNode bs t fuel n v0 with ⟨b, v1⟩
            rw [hr] at hfold1
            cases b with
            | true =>
              rw [dfsFold_true] at hfold1
              cases hfold1
            | false =>
              have h1 := ih n v0 v1 hfuel hr
              rcases h1 with ⟨hv01, hn1, hnew1⟩
              have hfold2 : (rest.foldl
                  (fun acc next => if acc.1 then acc else dfsNode bs t fuel next acc.2)
                  (false, v1)) = (false, w0) := hfold1
              have hfuel2 : outsideCount bs v1 < fuel :=
                lt_of_le_of_lt (outsideCount_mono hv01) hfuel
              have h2 := ihl v1 w0
                (fun m hm => hmem m (List.mem_cons_of_mem n hm)) hfuel2 hfold2
              rcases h2 with ⟨hv1w, hrest, hnew2⟩
              refine ⟨fun a ha => hv1w (hv01 ha), ?_, ?_⟩
              · intro m hm
                rcases List.mem_cons.mp hm with rfl | hm2
                · exact hv1w hn1
                · exact hrest m hm2
              · intro x hx hnx
                by_cases hx1 : x ∈ v1
                · rcases hnew1 x hx1 hnx with ⟨hxt, hsucc⟩
                  exact ⟨hxt, fun y hy => hv1w (hsucc y hy)⟩
                · exact hnew2 x hx hx1
        rcases hsucc : bindingSucc bs s with _ | ⟨y0, ys⟩
        · simp only [dfsNode, if_neg hst, if_neg hsv, hsucc, List.foldl_nil] at hrun
          obtain ⟨rfl⟩ : s :: v = w := by cases hrun; rfl
          refine ⟨fun a ha => List.mem_cons_of_mem s ha, List.mem_cons_self _ _, ?_⟩
          intro x hx hnx
          rcases List.mem_cons.mp hx with rfl | hx2
          · exact ⟨hst, by simp [hsucc]⟩
          · exact absurd hx2 hnx
        · have hsrc : s ∈ bs.map (fun b => b.sourceNodeId) :=
            mem_sources_of_bindingSucc_ne_nil (by simp [hsucc])
          have hfuel1 : outsideCount bs (s :: v) < fuel := by
            have := outsideCount_lt hsrc hsv
            omega
          simp only [dfsNode, if_neg hst, if_neg hsv] at hrun
          have h := aux (bindingSucc bs s) (s :: v) w (fun n hn => hn) hfuel1
            (by rw [hsucc] at hrun ⊢; exact hrun)
          rcases h with ⟨hsvw, hsuccw, hnew⟩
          refine ⟨fun a ha => hsvw (List.mem_cons_of_mem s ha),
            hsvw (List.mem_cons_self _ _), ?_⟩
          intro x hx hnx
          by_cases hxs : x = s
          · subst hxs
            exact ⟨hst, fun y hy => hsuccw y hy⟩
          · have : x ∉ s :: v := by
              intro hc
              rcases List.mem_cons.mp hc with h1 | h1
              · exact hxs h1
              · exact hnx h1
            exact hnew x hx this

/-- Completeness: `hasPath` answering `false` is conclusive: no path exists through the
binding edges. -/
theorem hasPathG_false_not_reach {bs : List LoadedB} {s t : String}
    (h : hasPathG bs s t = false) : ¬ ReachE (edgesL bs) s t := by
  unfold hasPathG at h
  rcases hr : dfsNode bs t (fuelFor bs) s [] with ⟨b, w⟩
  rw [hr] at h
  cases b with
  | true => cases h
  | false =>
    have hout : outsideCount bs [] < fuelFor bs := by
      have h1 : outsideCount bs [] ≤ bs.length := by
        calc outsideCount bs [] ≤ (bs.map (fun b => b.sourceNodeId)).length :=
              List.length_filter_le _ _
          _ = bs.length := List.length_map _ _
      unfold fuelFor
      omega
    obtain ⟨-, hsw, hexp⟩ := dfsNode_false_explored bs t (fuelFor bs) s [] w hout hr
    intro hreach
    have key : ∀ x, ReachE (edgesL bs) x t → x ∈ w → False := by
      intro x hx
      induction hx using Relation.ReflTransGen.head_induction_on with
      | refl =>
        intro hmem
        exact (hexp t hmem (List.not_mem_nil t)).1 rfl
      | head hstep hrest ih =>
        intro hmem
        rcases hexp _ hmem (List.not_mem_nil _) with ⟨-, hsucc⟩
        exact ih (hsucc _ (mem_bindingSucc_iff.mpr hstep))
    exact key s hreach hsw

/-- Soundness direction used by C2: `hasPath` finds every existing path. -/
theorem hasPathG_true_of_reach {bs : List LoadedB} {s t : String}
    (h : ReachE (edgesL bs) s t) : hasPathG bs s t = true := by
  cases hb : hasPathG bs s t with
  | true => rfl
  | false => exact absurd h (hasPathG_false_not_reach hb)

theorem acyclicE_nil : AcyclicE [] := by
  intro a h
  rcases Relation.TransGen.head'_iff.mp h with ⟨b, hstep, -⟩
  exact List.not_mem_nil _ hstep

theorem acyclicE_of_subset {E1 E2 : List (String × String)}
    (hsub : ∀ p ∈ E1, p ∈ E2) (h : AcyclicE E2) : AcyclicE E1 := by
  intro a ha
  exact h a (Relation.TransGen.mono (fun x y hxy => hsub (x, y) hxy) ha)

/-- Path decomposition: a path through `(s, d) :: E` either avoids the
new edge, or splits as a path to `s` followed by a path from `d`. -/
theorem reachE_cons_elim {E : List (String × String)} {s d a b : String}
    (h : ReachE ((s, d) :: E) a b) :
    ReachE E a b ∨ (ReachE E a s ∧ ReachE E d b) := by
  induction h with
  | refl => exact Or.inl Relation.ReflTransGen.refl
  | @tail m c hac hcb ih =>
    rcases List.mem_cons.mp hcb with heq | hmem
    · obtain ⟨h1, h2⟩ := Prod.mk.injEq .. ▸ heq
      subst h1
      subst h2
      rcases ih with h1 | ⟨h1, -⟩
      · exact Or.inr ⟨h1, Relation.ReflTransGen.refl⟩
      · exact Or.inr ⟨h1, Relation.ReflTransGen.refl⟩
    · rcases ih with h1 | ⟨h1, h2⟩
      · exact Or.inl (h1.tail hmem)
      · exact Or.inr ⟨h1, h2.tail hmem⟩

/-- Adding the edge `s → d` to an acyclic edge list keeps it acyclic as
long as `d` does not already reach `s`. -/
theorem acyclicE_insert {E : List (String × String)} {s d : String}
    (ha : AcyclicE E) (hnr : ¬ ReachE E d s) : AcyclicE ((s, d) :: E) := by
  intro a hcycle
  rcases Relation.TransGen.head'_iff.mp hcycle with ⟨b, hstep, hrest⟩
  rcases List.mem_cons.mp hstep with heq | hmem
  · obtain ⟨h1, h2⟩ := Prod.mk.injEq .. ▸ heq
    subst h1
    subst h2
    rcases reachE_cons_elim hrest with h1 | ⟨h1, -⟩
    · exact hnr h1
    · exact hnr h1
  · rcases reachE_cons_elim hrest with h1 | ⟨h1, h2⟩
    · exact ha a (Relation.TransGen.head'_iff.mpr ⟨b, hmem, h1⟩)
    · exact hnr (Relation.ReflTransGen.trans (h2.tail hmem) h1)

/-- Running the source's own cycle probe over every registered binding
certifies the acyclicity invariant for a concrete graph state. -/
theorem acyclicSt_of_check (st : GraphState)
    (h : st.loadedBindings.all
      (fun b => !(hasPathG st.loadedBindings b.destinationNodeId b.sourceNodeId)) = true) :
    AcyclicSt st := by
  intro a hcycle
  rcases Relation.TransGen.head'_iff.mp hcycle with ⟨b, hstep, hrest⟩
  obtain ⟨lb, hlb, h1, h2⟩ := mem_edgesL.mp hstep
  have hc := List.all_eq_true.mp h lb hlb
  have hfalse : hasPathG st.loadedBindings lb.destinationNodeId lb.sourceNodeId = false := by
    simpa using hc
  refine hasPathG_false_not_reach hfalse ?_
  rw [h1, h2]
  exact hrest

/-!
### Edge preservation of the graph operations
-/

theorem edgesL_destroyLB (bs : List LoadedB) (target : String) :
    edgesL (destroyLB bs target) = edgesL bs := by
  unfold edgesL destroyLB
  rw [List.map_map]
  refine List.map_congr_left (fun b _ => ?_)
  by_cases hb : b.id = target <;> simp [hb]

theorem edges_deleteBindingOp (st : GraphState) (bc : BindingDef) :
    edges (deleteBindingOp st bc).2.1 = edges st := by
  unfold deleteBindingOp
  cases hf : st.loadedBindings.find?
      (fun lb => lb.config.fromPort == bc.fromPort && lb.config.toPort == bc.toPort) with
  | none => rfl
  | some lb =>
    show edges { st with loadedBindings := destroyLB st.loadedBindings lb.id } = edges st
    rw [edges_eq_edgesL, edges_eq_edgesL]
    exact edgesL_destroyLB st.loadedBindings lb.id

theorem removeNode_fold_edges (l : List LoadedB) :
    ∀ (st0 : GraphState) (ev0 : List GEvent),
      edges ((l.foldl
        (fun (acc : GraphState × List GEvent) b =>
          let r := deleteBindingOp acc.1 b.config
          (r.2.1, acc.2 ++ r.2.2))
        (st0, ev0)).1) = edges st0 := by
  induction l with
  | nil => intro st0 ev0; rfl
  | cons b rest ih =>
    intro st0 ev0
    rw [List.foldl_cons]
    show edges ((rest.foldl _
      ((deleteBindingOp st0 b.config).2.1, ev0 ++ (deleteBindingOp st0 b.config).2.2)).1) = _
    rw [ih]
    exact edges_deleteBindingOp st0 b.config

theorem edges_removeNodeOp (st : GraphState) (nodeId : String) :
    edges (removeNodeOp st nodeId).2.1 = edges st := by
  unfold removeNodeOp
  cases hg : getNode st nodeId with
  | none => rfl
  | some n =>
    simp only []
    split
    · exact removeNode_fold_edges _ st []
    · exact removeNode_fold_edges _ st []

theorem buildFilters_loadedBindings (reg : List FilterRegEntry) (bid : String) :
    ∀ (l : List FilterDef) (i : Nat) (ty : String) (st : GraphState) (acc : List String),
      (buildFilters reg bid l i ty st acc).2.1.loadedBindings = st.loadedBindings := by
  intro l
  induction l with
  | nil => intro i ty st acc; rfl
  | cons fd rest ih =>
    intro i ty st acc
    unfold buildFilters
    cases hf : reg.find? (fun e => e.ftype == fd.ftype) with
    | none => rfl
    | some man =>
      by_cases hdup : (getNode st (lbFilterId bid i)).isSome
      · simp [hdup]
      · by_cases hacc : man.acceptsType ty = true
        · simp only [hdup, hacc, if_false, if_true, Bool.false_eq_true]
          rw [ih]
        · simp [hdup, hacc]

theorem edgesL_setLB_subset (bs : List LoadedB) (lb : LoadedB) :
    ∀ p ∈ edgesL (setLB bs lb),
      p = (lb.sourceNodeId, lb.destinationNodeId) ∨ p ∈ edgesL bs := by
  induction bs with
  | nil =>
    intro p hp
    simp [setLB, edgesL] at hp
    exact Or.inl hp
  | cons b t ih =>
    intro p hp
    by_cases hb : b.id == lb.id
    · simp only [setLB, hb, if_true, edgesL, List.map_cons, List.mem_cons] at hp ⊢
      rcases hp with h1 | h1
      · exact Or.inl h1
      · exact Or.inr (Or.inr h1)
    · simp only [setLB, hb, if_false, Bool.false_eq_true, edgesL, List.map_cons,
        List.mem_cons] at hp ⊢
      rcases hp with h1 | h1
      · exact Or.inr (Or.inl h1)
      · rcases ih p h1 with h2 | h2
        · exact Or.inl h2
        · exact Or.inr (Or.inr h2)

theorem edges_congr {st1 st2 : GraphState}
    (h : st1.loadedBindings = st2.loadedBindings) : edges st1 = edges st2 := by
  unfold edges
  rw [h]

theorem lbConstruct_loadedBindings (reg : List FilterRegEntry) (st : GraphState)
    (bd : BindingDef) (up : NodeRec) :
    (lbConstruct reg st bd up).2.1.loadedBindings = st.loadedBindings := by
  unfold lbConstruct
  split
  · exact buildFilters_loadedBindings reg bd.id bd.filters 0 _ st []
  · rfl

/-- C2: starting from a graph whose binding edges are acyclic, (1) every
public mutating `NodeGraph` operation leaves the binding edges acyclic,
and (2) whenever `loadBinding` resolves both endpoint nodes and the
destination node already reaches the source node through the existing
binding edges, the call rejects with the would-create-cycle error and
returns the three registries exactly as they were, performing no
lifecycle calls or notifications — the DFS runs before any mutation. -/
theorem nodeGraph_acyclic_invariant_and_cycle_rejection
    (st : GraphState) (op : GraphOp) (h : AcyclicSt st) :
    AcyclicSt (applyGraphOp op st).2.1 ∧
    (∀ (reg : List FilterRegEntry) (bd : BindingDef) (up dn : NodeRec),
      op = GraphOp.loadBinding reg bd →
      getNode st (compOf bd.fromPort) = some up →
      getNode st (compOf bd.toPort) = some dn →
      ReachE (edges st) dn.id up.id →
      applyGraphOp op st = (some (GErr.wouldCreateCycle up.id dn.id), st, [])) := by
  constructor
  · cases op with
    | addNode n =>
      show AcyclicSt (addNodeOp st n).2.1
      unfold addNodeOp
      by_cases hc : (getNode st n.id).isSome <;> simp only [hc, if_true, if_false] <;>
        exact h
    | removeNode nodeId =>
      show AcyclicSt (removeNodeOp st nodeId).2.1
      show AcyclicE (edges (removeNodeOp st nodeId).2.1)
      rw [edges_removeNodeOp]
      exact h
    | deleteBinding bd =>
      show AcyclicE (edges (deleteBindingOp st bd).2.1)
      rw [edges_deleteBindingOp]
      exact h
    | ready =>
      exact h
    | destroyAll =>
      exact acyclicE_nil
    | clear =>
      exact acyclicE_nil
    | loadBinding reg bd =>
      show AcyclicSt (loadBindingOp reg st bd).2.1
      unfold loadBindingOp
      cases hup : getNode st (compOf bd.fromPort) with
      | none => exact h
      | some up =>
        cases hdn : getNode st (compOf bd.toPort) with
        | none => exact h
        | some dn =>
          simp only []
          cases hcyc : hasPathG st.loadedBindings dn.id up.id with
          | true => simpa only [if_true] using h
          | false =>
            simp only [Bool.false_eq_true, if_false]
            have hlbs := lbConstruct_loadedBindings reg st bd up
            cases hfc : (lbConstruct reg st bd up).1 with
            | some e =>
              simp only [hfc]
              show AcyclicE (edges (lbConstruct reg st bd up).2.1)
              rw [edges_congr hlbs]
              exact h
            | none =>
              simp only [hfc]
              show AcyclicE (edges { (lbConstruct reg st bd up).2.1 with
                loadedBindings := setLB (lbConstruct reg st bd up).2.1.loadedBindings
                  ⟨bd.id, up.id, portOf bd.fromPort, dn.id, portOf bd.toPort,
                    (lbConstruct reg st bd up).2.2, bd⟩ })
              have hnr : ¬ ReachE (edgesL st.loadedBindings) dn.id up.id :=
                hasPathG_false_not_reach hcyc
              refine acyclicE_of_subset ?_ (acyclicE_insert h hnr)
              intro p hp
              have hp3 : p ∈ edgesL (setLB st.loadedBindings
                  ⟨bd.id, up.id, portOf bd.fromPort, dn.id, portOf bd.toPort,
                    (lbConstruct reg st bd up).2.2, bd⟩) := by
                rw [← hlbs]
                exact hp
              have hp2 := edgesL_setLB_subset st.loadedBindings
                ⟨bd.id, up.id, portOf bd.fromPort, dn.id, portOf bd.toPort,
                  (lbConstruct reg st bd up).2.2, bd⟩ p hp3
              rcases hp2 with h1 | h1
              · rw [h1]
                exact List.mem_cons_self _ _
              · exact List.mem_cons_of_mem _ h1
  · intro reg bd up dn hop hup hdn hreach
    subst hop
    show loadBindingOp reg st bd = _
    unfold loadBindingOp
    rw [hup, hdn]
    have hcyc : hasPathG st.loadedBindings dn.id up.id = true :=
      hasPathG_true_of_reach hreach
    simp only [hcyc, if_true]

/-- Witness for C2: a two-node graph with the single binding a → b is
certified acyclic by the source's own probe; asking `loadBinding` for the
reverse edge b → a is rejected with the cycle error, every registry is
returned unchanged, and the resulting state is still acyclic. -/
theorem nodeGraph_acyclic_invariant_and_cycle_rejection_witness :
    AcyclicSt (applyGraphOp
      (GraphOp.loadBinding [] ⟨"b2", "b.out", "a.in", []⟩)
      ⟨[⟨"a", [("out", "any")]⟩, ⟨"b", [("in", "any")]⟩],
        [⟨"b1", "a", "out", "b", "in", [], ⟨"b1", "a.out", "b.in", []⟩⟩],
        []⟩).2.1 ∧
    applyGraphOp (GraphOp.loadBinding [] ⟨"b2", "b.out", "a.in", []⟩)
      ⟨[⟨"a", [("out", "any")]⟩, ⟨"b", [("in", "any")]⟩],
        [⟨"b1", "a", "out", "b", "in", [], ⟨"b1", "a.out", "b.in", []⟩⟩],
        []⟩ =
      (some (GErr.wouldCreateCycle "b" "a"),
        ⟨[⟨"a", [("out", "any")]⟩, ⟨"b", [("in", "any")]⟩],
          [⟨"b1", "a", "out", "b", "in", [], ⟨"b1", "a.out", "b.in", []⟩⟩],
          []⟩, []) := by
  have h := nodeGraph_acyclic_invariant_and_cycle_rejection
    ⟨[⟨"a", [("out", "any")]⟩, ⟨"b", [("in", "any")]⟩],
      [⟨"b1", "a", "out", "b", "in", [], ⟨"b1", "a.out", "b.in", []⟩⟩],
      []⟩
    (GraphOp.loadBinding [] ⟨"b2", "b.out", "a.in", []⟩)
    (acyclicSt_of_check _ rfl)
  refine ⟨h.1, ?_⟩
  refine h.2 [] ⟨"b2", "b.out", "a.in", []⟩ ⟨"b", [("in", "any")]⟩
    ⟨"a", [("out", "any")]⟩ rfl rfl rfl ?_
  exact Relation.ReflTransGen.single
    (show ((("a" : String), ("b" : String)) ∈
      edges ⟨[⟨"a", [("out", "any")]⟩, ⟨"b", [("in", "any")]⟩],
        [⟨"b1", "a", "out", "b", "in", [], ⟨"b1", "a.out", "b.in", []⟩⟩],
        []⟩) by decide)

/-- C3, evaluated at a node participating in one binding: `removeNode`
succeeds, tears the binding down and removes the node from the node
registry (`getNode` finds nothing afterwards), but the destroyed binding
*remains* in the binding registry still referencing the removed node,
because `deleteBinding` never deletes the map entry — the claimed
"zero loaded bindings referencing that node remain" is false.  A second
conjunct shows the not-found error for an absent id. -/
theorem removeNode_leaves_destroyed_binding_in_registry :
    (removeNodeOp
        ⟨[⟨"n1", [("out", "number")]⟩, ⟨"n2", []⟩],
          [⟨"b1", "n1", "out", "n2", "in", [], ⟨"b1", "n1.out", "n2.in", []⟩⟩],
          []⟩ "n1").1 = none ∧
    getNode (removeNodeOp
        ⟨[⟨"n1", [("out", "number")]⟩, ⟨"n2", []⟩],
          [⟨"b1", "n1", "out", "n2", "in", [], ⟨"b1", "n1.out", "n2.in", []⟩⟩],
          []⟩ "n1").2.1 "n1" = none ∧
    ((removeNodeOp
        ⟨[⟨"n1", [("out", "number")]⟩, ⟨"n2", []⟩],
          [⟨"b1", "n1", "out", "n2", "in", [], ⟨"b1", "n1.out", "n2.in", []⟩⟩],
          []⟩ "n1").2.1.loadedBindings.filter
        (fun b => b.sourceNodeId == "n1" || b.destinationNodeId == "n1")).length = 1 ∧
    (removeNodeOp
        ⟨[⟨"n2", []⟩], [], []⟩ "n1").1 = some (GErr.nodeNotFound "n1") :=
  ⟨rfl, rfl, rfl, rfl⟩

/-- C10: `deleteBinding` with an endpoint pair matching no loaded
binding returns normally (no error), leaves all three registries exactly
as they were, and still fires the graph-level structural-change
notification. -/
theorem deleteBinding_unmatched_is_silent_noop
    (st : GraphState) (bc : BindingDef)
    (h : ∀ lb ∈ st.loadedBindings,
      ¬(lb.config.fromPort = bc.fromPort ∧ lb.config.toPort = bc.toPort)) :
    deleteBindingOp st bc = (none, st, [GEvent.refreshNotified]) := by
  unfold deleteBindingOp
  have hf : st.loadedBindings.find?
      (fun lb => lb.config.fromPort == bc.fromPort && lb.config.toPort == bc.toPort) = none := by
    rw [List.find?_eq_none]
    intro lb hlb
    have hn := h lb hlb
    simp only [Bool.and_eq_true, beq_iff_eq]
    exact fun hc => hn hc
  rw [hf]

/-- Witness for C10: deleting a binding definition whose endpoints match
nothing in a one-binding registry. -/
theorem deleteBinding_unmatched_is_silent_noop_witness :
    deleteBindingOp
      ⟨[⟨"n1", []⟩],
        [⟨"b1", "n1", "out", "n2", "in", [], ⟨"b1", "n1.out", "n2.in", []⟩⟩],
        ["n1"]⟩
      ⟨"bx", "n1.out", "n9.in", []⟩ =
      (none,
        ⟨[⟨"n1", []⟩],
          [⟨"b1", "n1", "out", "n2", "in", [], ⟨"b1", "n1.out", "n2.in", []⟩⟩],
          ["n1"]⟩,
        [GEvent.refreshNotified]) :=
  deleteBinding_unmatched_is_silent_noop _ _ (by
    intro lb hlb
    simp only [List.mem_singleton] at hlb
    subst hlb
    intro hc
    exact absurd hc.2 (by decide))

end Dashbeard
